import Mathlib

/-!
Verification development for the TerminalWave terminal music player
(`music.cpp`, current revision: `play_file` at lines 1180-1409,
`audio_thread` at lines 1411-1432, `main` at lines 1444-1590).

The playback engine is embedded shallowly: the shared transport flags
become a `Transport` record, the mutex-guarded playlist deque becomes a
`List String`, the `RenderState` struct and its publish sites become pure
record-update functions, and the decode-loop decisions become functions on
enumerated result codes.  C++ `double` values are modelled as exact
rationals, the external FFT output as an abstract list of complex pairs.
-/

namespace TerminalWave

/-- `#define FFT_SIZE 1024` (music.cpp line 631). -/
def FFT_SIZE : Nat := 1024

/-- `#define BUFFER_SIZE 8192` (music.cpp line 629). -/
def BUFFER_SIZE : Nat := 8192

/-- `enum VisualizationMode { WAVEFORM = 1, SPECTRUM = 2 }` (line 633). -/
inductive VisualizationMode where
  | WAVEFORM
  | SPECTRUM
deriving DecidableEq, Repr

/-- The shared atomic transport flags of the engine (lines 658-663):
`shouldQuit`, `stopTrack`, `isPlaying`, `isPaused`, `seekCommand`,
`visMode`. -/
structure Transport where
  shouldQuit : Bool
  stopTrack : Bool
  isPlaying : Bool
  isPaused : Bool
  seekCommand : Int
  visMode : VisualizationMode
deriving DecidableEq, Repr

/-- The UI stores a seek delta: `seekCommand.store(d)`; this is the shape of
the `KEY_LEFT`/`KEY_RIGHT` handlers (lines 1509-1512). -/
def uiStoreSeek (t : Transport) (d : Int) : Transport :=
  { t with seekCommand := d }

/-- `KEY_LEFT` handler: `seekCommand.store(-5)` (line 1510). -/
def uiSeekLeft (t : Transport) : Transport := uiStoreSeek t (-5)

/-- `KEY_RIGHT` handler: `seekCommand.store(5)` (line 1512). -/
def uiSeekRight (t : Transport) : Transport := uiStoreSeek t 5

/-- The worker consumes the pending seek value:
`int cmdSec = seekCommand.exchange(0)` (line 1322).  Returns the observed
value together with the post-exchange transport state. -/
def workerConsumeSeek (t : Transport) : Int × Transport :=
  (t.seekCommand, { t with seekCommand := 0 })

/-- Flag initialisation at the start of every successfully opened track
(lines 1249-1251): `isPlaying.store(true); isPaused.store(false);
seekCommand.store(0);`. -/
def playFileInit (t : Transport) : Transport :=
  { t with isPlaying := true, isPaused := false, seekCommand := 0 }

/-- The predicate of the pause condition wait (line 1308):
`!isPaused.load() || shouldQuit.load() || stopTrack.load()`. -/
def pauseWaitPredicate (t : Transport) : Bool :=
  !t.isPaused || t.shouldQuit || t.stopTrack

/-- The clamped sample position passed to `mpg123_seek` (lines 1324-1331):
normalise a negative reported position to 0, add `cmdSec * rate` samples,
clamp below at 0, and clamp above at `length` only when `length > 0`. -/
def seekTarget (curPos cmdSec rate length : Int) : Int :=
  let cur := if curPos < 0 then 0 else curPos
  let newPos := cur + cmdSec * rate
  let newPos2 := if newPos < 0 then 0 else newPos
  if 0 < length ∧ length < newPos2 then length else newPos2

/-- One seek-consumption step of the streaming loop (lines 1322-1332):
exchange the accumulator to zero; if the observed delta is nonzero, seek to
the clamped target, otherwise perform no seek. -/
def seekStep (t : Transport) (curPos rate length : Int) :
    Transport × Option Int :=
  let consumed := workerConsumeSeek t
  if consumed.1 ≠ 0 then
    (consumed.2, some (seekTarget curPos consumed.1 rate length))
  else
    (consumed.2, none)

/-- The `Enter`-on-`.mp3` handler (lines 1546-1554): under the playlist
lock clear the queue and push the selected path, then
`stopTrack.store(true); isPaused.store(false);` and notify both condition
variables.  Returns the new queue and transport state. -/
def handleReplaceAndPlay (q : List String) (t : Transport) (track : String) :
    List String × Transport :=
  let q2 : List String := []
  let q3 := q2 ++ [track]
  (q3, { t with stopTrack := true, isPaused := false })

/-- Claim C1: the spec says multiple seek commands issued before the worker
next consumes the pending value are summed (two `Seek(-5)` compose to
`-10`).  The code stores, not adds: after two `KEY_LEFT` presses the worker
observes `-5`, not `-10`. -/
theorem seek_deltas_not_summed_cex :
    (workerConsumeSeek (uiSeekLeft (uiSeekLeft
      ⟨false, false, true, false, 0, VisualizationMode.WAVEFORM⟩))).1 = -5 ∧
    (workerConsumeSeek (uiSeekLeft (uiSeekLeft
      ⟨false, false, true, false, 0, VisualizationMode.WAVEFORM⟩))).1 ≠ -10 := by
  constructor
  · rfl
  · decide

/-- Claim C1 (amended): the UI stores each seek delta with a plain
overwrite, so of any two deltas stored before the worker's next exchange
only the last survives: the worker observes `d2` alone (last-writer-wins),
and the exchange resets the accumulator to zero. -/
theorem seek_last_writer_wins (t : Transport) (d1 d2 : Int) :
    (uiStoreSeek (uiStoreSeek t d1) d2).seekCommand = d2 ∧
    (workerConsumeSeek (uiStoreSeek (uiStoreSeek t d1) d2)).1 = d2 ∧
    (workerConsumeSeek (uiStoreSeek (uiStoreSeek t d1) d2)).2.seekCommand = 0 := by
  refine ⟨rfl, rfl, rfl⟩

/-- Claim C5: for a nonnegative current sample position, the position
passed to `mpg123_seek` is the clamped target
`max 0 (min length (curPos + d * rate))` when the duration is known
(`length > 0`), and only the lower clamp applies when the duration is
unknown (`length ≤ 0`).  Dividing by the sample rate this is exactly
`max(0, min(T, t+d))` in seconds. -/
theorem seek_target_clamped (curPos d rate length : Int) (hc : 0 ≤ curPos) :
    (0 < length →
      seekTarget curPos d rate length = max 0 (min length (curPos + d * rate))) ∧
    (length ≤ 0 →
      seekTarget curPos d rate length = max 0 (curPos + d * rate)) := by
  simp only [seekTarget]
  generalize d * rate = m
  constructor
  · intro hl
    split_ifs <;> omega
  · intro hl
    split_ifs <;> omega

/-- Witness for `seek_target_clamped` at `curPos = 529200`, `d = -5`,
`rate = 44100`, `length = 7938000` (elapsed 12 s, duration 180 s): the
seek lands at sample `308700`, i.e. 7 s. -/
theorem seek_target_clamped_witness :
    0 ≤ (529200 : Int) ∧
    ((0 < (7938000 : Int) →
      seekTarget 529200 (-5) 44100 7938000 =
        max 0 (min 7938000 (529200 + (-5) * 44100))) ∧
    ((7938000 : Int) ≤ 0 →
      seekTarget 529200 (-5) 44100 7938000 = max 0 (529200 + (-5) * 44100))) :=
  ⟨by decide, seek_target_clamped 529200 (-5) 44100 7938000 (by decide)⟩

/-- Claim C9: the ReplaceAndPlay handler always clears the paused flag and
makes the pause-wait predicate true (so the pause wait wakes), it leaves
exactly the selected track in the queue with the stop flag raised, and the
worker's per-track initialisation starts the new track un-paused whatever
the prior pause state was. -/
theorem replace_and_play_clears_pause (q : List String) (t t2 : Transport)
    (track : String) :
    (handleReplaceAndPlay q t track).2.isPaused = false ∧
    pauseWaitPredicate (handleReplaceAndPlay q t track).2 = true ∧
    (handleReplaceAndPlay q t track).1 = [track] ∧
    (handleReplaceAndPlay q t track).2.stopTrack = true ∧
    (playFileInit t2).isPaused = false := by
  refine ⟨rfl, ?_, rfl, rfl, rfl⟩
  simp [handleReplaceAndPlay, pauseWaitPredicate]

/-- Claim C10: the worker resets the pending seek accumulator to zero at
the start of every track, before the streaming loop; hence the loop's
first seek consumption observes zero, performs no decoder seek, and any
delta stored while no track was active is discarded. -/
theorem stale_seek_discarded (t : Transport) (curPos rate length : Int) :
    (playFileInit t).seekCommand = 0 ∧
    (seekStep (playFileInit t) curPos rate length).2 = none ∧
    (seekStep (playFileInit t) curPos rate length).1.seekCommand = 0 := by
  refine ⟨rfl, ?_, rfl⟩
  simp [seekStep, workerConsumeSeek, playFileInit]

/-! ## Playlist queue (`playlistMutex` / `playlist` deque, lines 665-667)
and the queue consumer (`audio_thread`, lines 1411-1432). -/

/-- Result of one `pop` attempt of the consumer's blocking wait
(lines 1414-1424): terminate when `shouldQuit` is set, keep waiting while
the queue is empty, otherwise remove and return the front element. -/
inductive PopResult where
  | terminate
  | blocked
  | popped (t : String) (rest : List String)
deriving DecidableEq, Repr

/-- `playlistCV.wait(lock, [] { return shouldQuit.load() || !playlist.empty(); });
if (shouldQuit.load()) break; nextPath = playlist.front(); playlist.pop_front();`
(lines 1416-1423). -/
def popBlocking (quit : Bool) (q : List String) : PopResult :=
  if quit then PopResult.terminate
  else
    match q with
    | [] => PopResult.blocked
    | x :: rest => PopResult.popped x rest

/-- `playlist.push_back(x)` under the playlist lock (lines 1549, 1566). -/
def pushQueue (q : List String) (x : String) : List String := q ++ [x]

/-- A sequence of pushes applied to the empty queue. -/
def pushAll (xs : List String) : List String := List.foldl pushQueue [] xs

/-- The replace operation of the `Enter`-on-`.mp3` handler (lines 1547-1549):
`playlist.clear(); playlist.push_back(x);` in one critical section. -/
def replaceQueue (q : List String) (x : String) : List String :=
  pushQueue [] x

/-- Repeatedly call the blocking pop, collecting the returned elements;
`fuel` bounds the number of attempts (termination measure only). -/
def drainPops : Nat → List String → List String
  | 0, _ => []
  | Nat.succ n, q =>
    match popBlocking false q with
    | PopResult.popped x rest => x :: drainPops n rest
    | _ => []

/-- The consumer's next action after a worker invocation returns
(lines 1426-1429): `play_file(nextPath);` discards the returned status, so
the next blocking pop does not depend on it. -/
def consumerAfterTrack (quit : Bool) (playResult : Bool) (q : List String) :
    PopResult :=
  popBlocking quit q

/-- Pushing onto a queue prefixes the accumulated contents. -/
theorem foldl_pushQueue (xs : List String) (l : List String) :
    List.foldl pushQueue l xs = l ++ xs := by
  induction xs generalizing l with
  | nil => simp
  | cons x xs ih => simp [pushQueue, ih]

/-- Draining a queue with exactly enough fuel returns it front to back. -/
theorem drainPops_self (q : List String) :
    drainPops q.length q = q := by
  induction q with
  | nil => rfl
  | cons x rest ih => simp [drainPops, popBlocking, ih]

/-- Claim C7: pops return pushed elements in FIFO (insertion) order: for
every push sequence `xs` on an initially empty queue, successive blocking
pops yield exactly `xs`; after a `replace`, the next pop yields exactly the
replaced element with an empty remainder, and a pop of the empty queue
blocks. -/
theorem ringqueue_fifo_replace (xs q : List String) (x : String) :
    drainPops (pushAll xs).length (pushAll xs) = xs ∧
    popBlocking false (replaceQueue q x) = PopResult.popped x [] ∧
    popBlocking false [] = PopResult.blocked := by
  refine ⟨?_, rfl, rfl⟩
  have h : pushAll xs = xs := by
    simpa using foldl_pushQueue xs []
  rw [h, drainPops_self]

/-! ## Decode-loop result handling (`play_file` streaming loop). -/

/-- Abstraction of the `mpg123_read` return code (line 1335): `MPG123_OK`,
`MPG123_DONE`, or any other (error) code. -/
inductive Mpg123Ret where
  | ok
  | done
  | err
deriving DecidableEq, Repr

/-- Abstraction of the `Pa_WriteStream` return code (line 1342). -/
inductive PaRet where
  | paNoError
  | paErr
deriving DecidableEq, Repr

/-- What one iteration of the streaming loop does with a read result. -/
inductive LoopAction where
  | exitLoop
  | retryIteration
  | playChunk (frames : Nat)
deriving DecidableEq, Repr

/-- The body of the streaming loop after the read (lines 1334-1342):
`if (ret == MPG123_DONE || ret != MPG123_OK) break; if (done == 0) continue;
int frames = done / (channels * sizeof(int16_t)); if (frames <= 0) continue;
if (Pa_WriteStream(...) != paNoError) break;`. -/
def readDispatch (ret : Mpg123Ret) (bytes channels : Nat) (write : PaRet) :
    LoopAction :=
  if ret = Mpg123Ret.done ∨ ret ≠ Mpg123Ret.ok then LoopAction.exitLoop
  else if bytes = 0 then LoopAction.retryIteration
  else
    let frames := bytes / (channels * 2)
    if frames = 0 then LoopAction.retryIteration
    else if write = PaRet.paNoError then LoopAction.playChunk frames
    else LoopAction.exitLoop

/-- Claim C8: a mid-stream decode failure takes exactly the same loop exit
as end-of-stream; a successful read of zero bytes retries the iteration
instead of ending the track; the consumer's next action ignores whether the
worker reported failure, and with the quit flag clear it never terminates
the thread (it advances to the next queued track or waits). -/
theorem decode_error_like_eos (bytes channels : Nat) (w : PaRet)
    (q : List String) :
    readDispatch Mpg123Ret.err bytes channels w = LoopAction.exitLoop ∧
    readDispatch Mpg123Ret.err bytes channels w =
      readDispatch Mpg123Ret.done bytes channels w ∧
    readDispatch Mpg123Ret.ok 0 channels w = LoopAction.retryIteration ∧
    (∀ r1 r2 : Bool,
      consumerAfterTrack false r1 q = consumerAfterTrack false r2 q) ∧
    popBlocking false q ≠ PopResult.terminate := by
  refine ⟨rfl, rfl, rfl, fun r1 r2 => rfl, ?_⟩
  cases q <;> simp [popBlocking]

/-! ## RenderState and its publish/consume protocol
(struct at lines 677-685, publishes in `play_file`, consumer in `main`). -/

/-- `struct RenderState` (lines 677-685): current file path, elapsed and
total seconds, visualization mode, paused flag, mono sample buffer
(`int16_t`) and magnitude buffer (`double`). -/
structure RenderState where
  file : String
  curSec : ℚ
  totalSec : ℚ
  mode : VisualizationMode
  paused : Bool
  mono : List Int
  magnitudes : List ℝ

/-- `renderState.file = v;` -/
def setFile (v : String) (r : RenderState) : RenderState := { r with file := v }

/-- `renderState.curSec = v;` -/
def setCurSec (v : ℚ) (r : RenderState) : RenderState := { r with curSec := v }

/-- `renderState.totalSec = v;` -/
def setTotalSec (v : ℚ) (r : RenderState) : RenderState :=
  { r with totalSec := v }

/-- `renderState.mode = v;` -/
def setMode (v : VisualizationMode) (r : RenderState) : RenderState :=
  { r with mode := v }

/-- `renderState.paused = v;` -/
def setPaused (v : Bool) (r : RenderState) : RenderState :=
  { r with paused := v }

/-- `renderState.mono = v;` (assignment, `assign` or `clear`). -/
def setMono (v : List Int) (r : RenderState) : RenderState :=
  { r with mono := v }

/-- `renderState.magnitudes = v;` (assignment or `clear`). -/
def setMagnitudes (v : List ℝ) (r : RenderState) : RenderState :=
  { r with magnitudes := v }

/-- The opening publish (lines 1283-1290): file, `curSec = 0`, total,
mode, `paused = false`, `mono.assign(FFT_SIZE, 0)`, `magnitudes.clear()`,
in source order. -/
def openingPublish (path : String) (total : ℚ) (m : VisualizationMode)
    (r : RenderState) : RenderState :=
  setMagnitudes [] (setMono (List.replicate FFT_SIZE 0)
    (setPaused false (setMode m (setTotalSec total (setCurSec 0
      (setFile path r))))))

/-- The per-chunk streaming publish (lines 1373-1379): all seven fields
assigned in source order. -/
def streamingPublish (path : String) (cur total : ℚ) (m : VisualizationMode)
    (p : Bool) (mono : List Int) (mags : List ℝ) (r : RenderState) :
    RenderState :=
  setMagnitudes mags (setMono mono (setPaused p (setMode m
    (setTotalSec total (setCurSec cur (setFile path r))))))

/-- The publish on entering the paused state (lines 1302-1303):
`renderState.paused = true;` alone. -/
def pauseEnterPublish (r : RenderState) : RenderState := setPaused true r

/-- The publish on leaving the paused state (lines 1314-1315):
`renderState.paused = false;` alone. -/
def pauseLeavePublish (r : RenderState) : RenderState := setPaused false r

/-- The closing publish on every worker exit (lines 1399-1404):
`curSec = 0; totalSec = 0; paused = false; mono.clear();
magnitudes.clear();` — note no assignment to `file` or `mode`. -/
def closingPublish (r : RenderState) : RenderState :=
  setMagnitudes [] (setMono [] (setPaused false (setTotalSec 0
    (setCurSec 0 r))))

/-- The lock-protected shared record together with the `renderDirty` flag
(lines 687-689). -/
structure Shared where
  rs : RenderState
  dirty : Bool

/-- One publish under `renderMutex`: apply the field writes, then
`renderDirty.store(true, release)` (e.g. lines 1371-1381): the flag is
raised only together with the completed record. -/
def publish (f : RenderState → RenderState) (s : Shared) : Shared :=
  { rs := f s.rs, dirty := true }

/-- A lock-serialised sequence of publishes. -/
def runPublishes (s : Shared) : List (RenderState → RenderState) → Shared
  | [] => s
  | f :: fs => runPublishes (publish f s) fs

/-- The UI's consume path (lines 1476, 1484-1489): if
`renderDirty.exchange(false)` observes the flag, copy the whole record
under `renderMutex`. -/
def readerSnapshot (s : Shared) : Shared × Option RenderState :=
  if s.dirty then ({ s with dirty := false }, some s.rs) else (s, none)

/-- Publishing distributes over an appended final publish. -/
theorem runPublishes_append (s : Shared)
    (fs : List (RenderState → RenderState)) (f : RenderState → RenderState) :
    runPublishes s (fs ++ [f]) = publish f (runPublishes s fs) := by
  induction fs generalizing s with
  | nil => rfl
  | cons g gs ih => simp [runPublishes, ih]

/-- Claim C3: the spec says every publish overwrites every `RenderState`
field.  The pause-transition publish at lines 1302-1303 writes only the
`paused` flag: applied to two records that differ in `curSec` it yields
different results, so its outcome depends on the previous record contents
— a partial update, not a whole-record overwrite. -/
theorem publish_partial_update_cex :
    (pauseEnterPublish
      ⟨"t.mp3", 12, 180, VisualizationMode.WAVEFORM, false, [], []⟩).curSec
      = 12 ∧
    pauseEnterPublish
      ⟨"t.mp3", 12, 180, VisualizationMode.WAVEFORM, false, [], []⟩ ≠
    pauseEnterPublish
      ⟨"t.mp3", 34, 180, VisualizationMode.WAVEFORM, false, [], []⟩ := by
  refine ⟨rfl, fun h => ?_⟩
  have h2 := congrArg RenderState.curSec h
  simp only [pauseEnterPublish, setPaused] at h2
  norm_num at h2

/-- Claim C3 (amended): the opening and streaming publishes do overwrite
every field (their result is independent of the previous record), while
the pause-transition publishes change only the `paused` flag; every
publish writes its fields and raises the dirty flag in one critical
section, and a reader that observes the dirty flag and copies under the
lock obtains exactly the last fully-published record, never a mix of old
and new fields. -/
theorem publish_protocol (path : String) (cur total : ℚ)
    (m : VisualizationMode) (p : Bool) (mono : List Int) (mags : List ℝ) :
    (∀ r r2 : RenderState,
      streamingPublish path cur total m p mono mags r =
        streamingPublish path cur total m p mono mags r2) ∧
    (∀ r r2 : RenderState,
      openingPublish path total m r = openingPublish path total m r2) ∧
    (∀ r : RenderState, pauseEnterPublish r = { r with paused := true }) ∧
    (∀ r : RenderState, pauseLeavePublish r = { r with paused := false }) ∧
    (∀ (f : RenderState → RenderState) (s : Shared),
      (publish f s).dirty = true ∧ (publish f s).rs = f s.rs) ∧
    (∀ (s : Shared) (fs : List (RenderState → RenderState))
      (f : RenderState → RenderState),
      (readerSnapshot (runPublishes s (fs ++ [f]))).2 =
        some (f (runPublishes s fs).rs)) := by
  refine ⟨fun r r2 => rfl, fun r r2 => rfl, fun r => rfl, fun r => rfl,
    fun f s => ⟨rfl, rfl⟩, fun s fs f => ?_⟩
  rw [runPublishes_append]
  rfl

/-- Claim C4: the spec says the final publish leaves an empty track
identifier.  The closing publish (lines 1399-1404) assigns neither
`renderState.file` nor `renderState.mode`: after the worker exits, the
identifier still holds the finished track's path. -/
theorem closing_keeps_file_cex :
    (closingPublish
      ⟨"a.mp3", 12, 180, VisualizationMode.WAVEFORM, false, [3], []⟩).file
      = "a.mp3" ∧
    (closingPublish
      ⟨"a.mp3", 12, 180, VisualizationMode.WAVEFORM, false, [3], []⟩).file
      ≠ "" := by
  refine ⟨rfl, ?_⟩
  decide

/-- Claim C4 (amended): on every worker exit the closing publish zeroes the
elapsed and total times, clears the paused flag and both visualization
buffers, but leaves the current track identifier (and visualization mode)
unchanged — the identifier is not emptied. -/
theorem closing_publish_fields (r : RenderState) :
    (closingPublish r).curSec = 0 ∧
    (closingPublish r).totalSec = 0 ∧
    (closingPublish r).paused = false ∧
    (closingPublish r).mono = [] ∧
    (closingPublish r).magnitudes = [] ∧
    (closingPublish r).file = r.file ∧
    (closingPublish r).mode = r.mode := by
  refine ⟨rfl, rfl, rfl, rfl, rfl, rfl, rfl⟩

/-! ## Feature extraction: mono buffer and spectrum input
(streaming loop lines 1347-1368; earlier revision lines 336-351). -/

/-- `static int clampi(int v, int lo, int hi)` (line 629):
`(v < lo) ? lo : ((v > hi) ? hi : v)`. -/
def clampi (v lo hi : Int) : Int :=
  if v < lo then lo else if hi < v then hi else v

/-- The nearest-neighbor source index for output column `i`
(lines 1352-1353): `round((double)i / (FFT_SIZE - 1) * max(0, frames - 1))`
clamped into `[0, max(0, frames - 1)]`. -/
def monoSrc (totalFrames i : Nat) : Int :=
  clampi
    (round ((i : ℚ) / ((FFT_SIZE : ℚ) - 1) *
      ((max 0 ((totalFrames : Int) - 1) : Int) : ℚ)))
    0 (max 0 ((totalFrames : Int) - 1))

/-- One entry of the mono buffer (line 1354):
`monoLocal[i] = samples[src * channels]` — the first channel of the
nearest-neighbor source frame. -/
def monoSample (samples : List Int) (channels totalFrames i : Nat) : Int :=
  samples.getD ((monoSrc totalFrames i).toNat * channels) 0

/-- The full `FFT_SIZE`-entry mono buffer (lines 1350-1355). -/
def monoLocal (samples : List Int) (channels totalFrames : Nat) : List Int :=
  (List.range FFT_SIZE).map (monoSample samples channels totalFrames)

/-- The transform input of the current revision (line 1361):
`fftIn[i] = (double)monoLocal[i] / 32768.0` for every `i < FFT_SIZE`. -/
def fftInput (samples : List Int) (channels totalFrames : Nat) : List ℚ :=
  (monoLocal samples channels totalFrames).map
    (fun s : Int => (s : ℚ) / 32768)

/-- The transform input of the earlier revision (lines 336-342): copy the
chunk's frames (first channel) and zero-fill the tail up to `FFT_SIZE` —
the zero-padding behaviour the spec describes. -/
def fftInputZeroPad (samples : List Int) (channels totalFrames : Nat) :
    List ℚ :=
  (List.range FFT_SIZE).map (fun i =>
    if i < totalFrames then (samples.getD (i * channels) 0 : ℚ) / 32768
    else 0)

/-- The magnitude reduction of the transform output (lines 1364-1368):
`FFT_SIZE / 2` entries, each `sqrt(re * re + im * im)` of the
corresponding complex bin. -/
noncomputable def magnitudesOf (out : List (ℝ × ℝ)) : List ℝ :=
  (List.range (FFT_SIZE / 2)).map (fun i =>
    Real.sqrt ((out.getD i (0, 0)).1 * (out.getD i (0, 0)).1 +
      (out.getD i (0, 0)).2 * (out.getD i (0, 0)).2))

/-- Reading an in-range position of a tabulated list yields the tabulated
function value. -/
theorem rangeMap_getD {α : Type} (f : Nat → α) (n i : Nat) (d : α)
    (h : i < n) : ((List.range n).map f).getD i d = f i := by
  rw [List.getD_eq_getElem?_getD]
  simp [List.getElem?_map, List.getElem?_range, h]

/-- `clampi` lands in the requested interval whenever it is nonempty. -/
theorem clampi_mem (v lo hi : Int) (h : lo ≤ hi) :
    lo ≤ clampi v lo hi ∧ clampi v lo hi ≤ hi := by
  unfold clampi
  split_ifs <;> omega

/-- Claim C6: the spec says a chunk shorter than the spectrum window is
zero-padded.  The current revision instead stretches the chunk by
nearest-neighbor mapping: for a one-frame chunk `[16384]` the last
transform input entry is `1/2`, where zero-padding (the earlier revision's
code, and the spec's words) puts `0` there. -/
theorem spectrum_zero_pad_cex :
    (fftInput [16384] 1 1).getD 1023 0 = 1 / 2 ∧
    (fftInputZeroPad [16384] 1 1).getD 1023 0 = 0 ∧
    (fftInput [16384] 1 1).getD 1023 0 ≠ 0 := by
  have h1 : (fftInput [16384] 1 1).getD 1023 0 =
      (monoSample [16384] 1 1 1023 : ℚ) / 32768 := by
    unfold fftInput monoLocal
    rw [List.map_map]
    exact rangeMap_getD _ _ _ _ (by norm_num [FFT_SIZE])
  have h0 : monoSrc 1 1023 = 0 := by
    simp [monoSrc, clampi]
  have h2 : monoSample [16384] 1 1 1023 = 16384 := by
    simp [monoSample, h0]
  have h3 : (fftInputZeroPad [16384] 1 1).getD 1023 0 = 0 := by
    unfold fftInputZeroPad
    rw [rangeMap_getD _ _ _ _ (by norm_num [FFT_SIZE])]
    norm_num
  refine ⟨?_, h3, ?_⟩
  · rw [h1, h2]; norm_num
  · rw [h1, h2]; norm_num

/-- Claim C6 (amended): for every PCM chunk the transform input has
exactly `FFT_SIZE` entries, but a chunk shorter than the window is filled
by nearest-neighbor index mapping — every input entry is an actual chunk
sample (first channel) scaled by `1/32768`, not a zero pad; the magnitude
output always has exactly `FFT_SIZE / 2` entries, each
`sqrt(re² + im²)` of the corresponding transform bin, regardless of the
chunk length. -/
theorem spectrum_shape (samples : List Int) (channels totalFrames : Nat)
    (out : List (ℝ × ℝ)) (hF : 1 ≤ totalFrames) :
    (fftInput samples channels totalFrames).length = FFT_SIZE ∧
    (magnitudesOf out).length = FFT_SIZE / 2 ∧
    (∀ i, i < FFT_SIZE / 2 → (magnitudesOf out).getD i 0 =
      Real.sqrt ((out.getD i (0, 0)).1 * (out.getD i (0, 0)).1 +
        (out.getD i (0, 0)).2 * (out.getD i (0, 0)).2)) ∧
    (∀ i, i < FFT_SIZE → ∃ j, j + 1 ≤ totalFrames ∧
      (fftInput samples channels totalFrames).getD i 0 =
        (samples.getD (j * channels) 0 : ℚ) / 32768) := by
  refine ⟨?_, ?_, ?_, ?_⟩
  · simp [fftInput, monoLocal]
  · simp [magnitudesOf]
  · intro i hi
    unfold magnitudesOf
    exact rangeMap_getD _ _ _ _ hi
  · intro i hi
    have hle : (0 : Int) ≤ max 0 ((totalFrames : Int) - 1) := le_max_left _ _
    have hb := clampi_mem
      (round ((i : ℚ) / ((FFT_SIZE : ℚ) - 1) *
        ((max 0 ((totalFrames : Int) - 1) : Int) : ℚ)))
      0 (max 0 ((totalFrames : Int) - 1)) hle
    refine ⟨(monoSrc totalFrames i).toNat, ?_, ?_⟩
    · have h1 : monoSrc totalFrames i ≤ max 0 ((totalFrames : Int) - 1) :=
        hb.2
      omega
    · unfold fftInput monoLocal
      rw [List.map_map]
      rw [rangeMap_getD _ _ _ _ hi]
      rfl

/-- Witness for `spectrum_shape` on the one-frame chunk `[16384]`, one
channel and an empty transform output. -/
theorem spectrum_shape_witness :
    1 ≤ 1 ∧
    ((fftInput [16384] 1 1).length = FFT_SIZE ∧
    (magnitudesOf []).length = FFT_SIZE / 2 ∧
    (∀ i, i < FFT_SIZE / 2 → (magnitudesOf []).getD i 0 =
      Real.sqrt ((([] : List (ℝ × ℝ)).getD i (0, 0)).1 *
          (([] : List (ℝ × ℝ)).getD i (0, 0)).1 +
        (([] : List (ℝ × ℝ)).getD i (0, 0)).2 *
          (([] : List (ℝ × ℝ)).getD i (0, 0)).2)) ∧
    (∀ i, i < FFT_SIZE → ∃ j, j + 1 ≤ 1 ∧
      (fftInput [16384] 1 1).getD i 0 =
        (([16384] : List Int).getD (j * 1) 0 : ℚ) / 32768)) :=
  ⟨by decide, spectrum_shape [16384] 1 1 [] (by decide)⟩

/-! ## Interleaving model for stop-and-clear followed by enqueue
(UI handlers at lines 1559-1584, consumer at lines 1411-1432). -/

/-- The primitive UI critical sections involved in the scenario: the `x`
handler runs `playlist.clear()` (lines 1578-1580) and then
`stopTrack.store(true)` (line 1581) as two separate atomic actions; the
`a` handler appends a track under the lock (line 1566). -/
inductive UICmd where
  | clearQueue
  | setStop
  | enqueue (t : String)
deriving DecidableEq, Repr

/-- Position of the audio thread: blocked in `pop_blocking`'s wait
(lines 1415-1424), between the pop and `stopTrack.store(false)`
(lines 1418-1426), or inside `play_file`'s streaming loop for a track
(lines 1298-1382). -/
inductive AudioPC where
  | waiting
  | popped (t : String)
  | playing (t : String)
deriving DecidableEq, Repr

/-- Joint state of the two threads: the playlist, the `stopTrack` flag,
the UI actions still pending, the audio thread position, and the log of
tracks whose playback has begun (in start order). -/
structure Sys where
  queue : List String
  stop : Bool
  ui : List UICmd
  audio : AudioPC
  played : List String
deriving DecidableEq, Repr

/-- One interleaved step of either thread.  The audio thread is a single
thread: a new play can begin only from `popped`, which is reachable only
through `waiting`, i.e. only after the in-flight `play_file` has returned.
`audioStart` models `stopTrack.store(false); play_file(t)` (lines
1426-1427); `audioIter` is one streaming-loop iteration, enabled only
while `stopTrack` is clear (line 1298); `audioExit` is any loop exit
(stop observed, end of stream, or error). -/
inductive SysStep : Sys → Sys → Prop where
  | uiClear (s : Sys) (rest : List UICmd)
      (h : s.ui = UICmd.clearQueue :: rest) :
      SysStep s { s with queue := [], ui := rest }
  | uiSetStop (s : Sys) (rest : List UICmd)
      (h : s.ui = UICmd.setStop :: rest) :
      SysStep s { s with stop := true, ui := rest }
  | uiEnqueue (s : Sys) (rest : List UICmd) (t : String)
      (h : s.ui = UICmd.enqueue t :: rest) :
      SysStep s { s with queue := s.queue ++ [t], ui := rest }
  | audioPop (s : Sys) (t : String) (rest : List String)
      (hq : s.queue = t :: rest) (ha : s.audio = AudioPC.waiting) :
      SysStep s { s with queue := rest, audio := AudioPC.popped t }
  | audioStart (s : Sys) (t : String) (ha : s.audio = AudioPC.popped t) :
      SysStep s { s with audio := AudioPC.playing t, stop := false, played := s.played ++ [t] }
  | audioIter (s : Sys) (t : String) (ha : s.audio = AudioPC.playing t)
      (hs : s.stop = false) : SysStep s s
  | audioExit (s : Sys) (t : String) (ha : s.audio = AudioPC.playing t) :
      SysStep s { s with audio := AudioPC.waiting }

/-- The UI actions of `StopAndClearQueue` immediately followed by
`Enqueue B`: clear, set the stop flag, append `B`. -/
def ScriptC2 (B : String) : List UICmd :=
  [UICmd.clearQueue, UICmd.setStop, UICmd.enqueue B]

/-- Start of the scenario: track `A` is in flight, the queue holds `q0`,
and the UI is about to run the stop-and-clear-then-enqueue script. -/
def initC2 (A B : String) (q0 : List String) (stop0 : Bool) : Sys :=
  ⟨q0, stop0, ScriptC2 B, AudioPC.playing A, [A]⟩

/-- Inductive invariant for the scenario: `A` is never in the queue, never
sitting popped, and appears in the start log exactly once (at its head);
the pending UI actions are a suffix of the script, and once the clear has
run every queued element is `B`. -/
def InvC2 (A B : String) (s : Sys) : Prop :=
  A ∉ s.queue ∧
  (∀ t, s.audio = AudioPC.popped t → t ≠ A) ∧
  (∃ tl, s.played = A :: tl ∧ A ∉ tl) ∧
  (s.ui = ScriptC2 B ∨ s.ui = [UICmd.setStop, UICmd.enqueue B] ∨
    s.ui = [UICmd.enqueue B] ∨ s.ui = []) ∧
  (s.ui ≠ ScriptC2 B → ∀ x ∈ s.queue, x = B)

/-- The invariant is preserved by every interleaved step. -/
theorem invC2_step (A B : String) (hAB : A ≠ B) (s s2 : Sys)
    (hs : InvC2 A B s) (h : SysStep s s2) : InvC2 A B s2 := by
  obtain ⟨hq, hp, ⟨tl, hpl, hmem⟩, hui, hqb⟩ := hs
  cases h with
  | uiClear rest hr =>
    have hrest : rest = [UICmd.setStop, UICmd.enqueue B] := by
      rcases hui with h1 | h1 | h1 | h1 <;> rw [hr] at h1 <;>
        simp [ScriptC2] at h1 <;> try exact h1
    refine ⟨by simp, hp, ⟨tl, hpl, hmem⟩, ?_, ?_⟩
    · exact Or.inr (Or.inl hrest)
    · intro _ x hx
      simp at hx
  | uiSetStop rest hr =>
    have hrest : rest = [UICmd.enqueue B] := by
      rcases hui with h1 | h1 | h1 | h1 <;> rw [hr] at h1 <;>
        simp [ScriptC2] at h1 <;> try exact h1
    have hne : s.ui ≠ ScriptC2 B := by
      rw [hr, hrest]
      simp [ScriptC2]
    refine ⟨hq, hp, ⟨tl, hpl, hmem⟩, Or.inr (Or.inr (Or.inl hrest)), ?_⟩
    intro _ x hx
    exact hqb hne x hx
  | uiEnqueue rest t hr =>
    have htB : t = B ∧ rest = [] := by
      rcases hui with h1 | h1 | h1 | h1 <;> rw [hr] at h1 <;>
        simp [ScriptC2] at h1
      · exact ⟨h1.1, h1.2⟩
    have hne : s.ui ≠ ScriptC2 B := by
      rw [hr, htB.1, htB.2]
      simp [ScriptC2]
    refine ⟨?_, hp, ⟨tl, hpl, hmem⟩, Or.inr (Or.inr (Or.inr htB.2)), ?_⟩
    · simp only [List.mem_append, List.mem_singleton]
      rintro (hx | hx)
      · exact hq hx
      · rw [htB.1] at hx
        exact hAB hx
    · intro _ x hx
      simp only [List.mem_append, List.mem_singleton] at hx
      rcases hx with hx | hx
      · exact hqb hne x hx
      · rw [hx, htB.1]
  | audioPop t rest hqr ha =>
    have htA : t ≠ A ∧ A ∉ rest := by
      rw [hqr] at hq
      simp only [List.mem_cons, not_or] at hq
      exact ⟨fun he => hq.1 he.symm, hq.2⟩
    refine ⟨htA.2, ?_, ⟨tl, hpl, hmem⟩, hui, ?_⟩
    · intro u hu
      simp only [AudioPC.popped.injEq] at hu
      rw [← hu]
      exact htA.1
    · intro hne x hx
      exact hqb hne x (by rw [hqr]; exact List.mem_cons_of_mem _ hx)
  | audioStart t ha =>
    have htA : t ≠ A := hp t ha
    refine ⟨hq, ?_, ⟨tl ++ [t], ?_, ?_⟩, hui, hqb⟩
    · intro u hu
      simp at hu
    · rw [hpl]
      rfl
    · simp only [List.mem_append, List.mem_singleton, not_or]
      exact ⟨hmem, fun he => htA he.symm⟩
  | audioIter t ha hst =>
    exact ⟨hq, hp, ⟨tl, hpl, hmem⟩, hui, hqb⟩
  | audioExit t ha =>
    refine ⟨hq, ?_, ⟨tl, hpl, hmem⟩, hui, hqb⟩
    intro u hu
    simp at hu

/-- The invariant holds in every state reachable from the scenario's
start. -/
theorem invC2_reach (A B : String) (hAB : A ≠ B) (q0 : List String)
    (stop0 : Bool) (hA : A ∉ q0) (s : Sys)
    (h : Relation.ReflTransGen SysStep (initC2 A B q0 stop0) s) :
    InvC2 A B s := by
  induction h with
  | refl =>
    refine ⟨hA, ?_, ⟨[], rfl, by simp⟩, Or.inl rfl, ?_⟩
    · intro u hu
      simp [initC2] at hu
    · intro hne
      exact absurd rfl hne
  | tail hr hstep ih =>
    exact invC2_step A B hAB _ _ ih hstep

/-- Claim C2: starting with track `A` in flight (and not queued again) and
the UI issuing `StopAndClearQueue` immediately followed by `Enqueue B`,
in every state reachable under every interleaving of the two threads the
play-start log begins with `A` and contains `A` exactly once — `A` is
never played again — and once the UI actions have all run, only `B` can be
waiting in the queue.  Plays are serialised on the audio thread (a start
step is enabled only after the in-flight worker has returned through its
stop check), so `B`'s playback begins only after `A`'s worker has
exited. -/
theorem stop_clear_enqueue_no_replay (A B : String) (q0 : List String)
    (stop0 : Bool) (hA : A ∉ q0) (hAB : A ≠ B) (s : Sys)
    (h : Relation.ReflTransGen SysStep (initC2 A B q0 stop0) s) :
    s.played.head? = some A ∧ s.played.count A = 1 ∧
    (s.ui = [] → ∀ x ∈ s.queue, x = B) := by
  obtain ⟨hq, hp, ⟨tl, hpl, hmem⟩, hui, hqb⟩ :=
    invC2_reach A B hAB q0 stop0 hA s h
  refine ⟨by rw [hpl]; rfl, ?_, ?_⟩
  · rw [hpl]
    simp [List.count_cons, List.count_eq_zero.mpr hmem]
  · intro hnil x hx
    exact hqb (by simp [hnil, ScriptC2]) x hx

/-- Witness for `stop_clear_enqueue_no_replay` at the scenario start with
`A = "a.mp3"`, `B = "b.mp3"`, an empty initial queue and the reflexive
schedule. -/
theorem stop_clear_enqueue_no_replay_witness :
    "a.mp3" ∉ ([] : List String) ∧ "a.mp3" ≠ "b.mp3" ∧
    ((initC2 "a.mp3" "b.mp3" [] false).played.head? = some "a.mp3" ∧
     (initC2 "a.mp3" "b.mp3" [] false).played.count "a.mp3" = 1 ∧
     ((initC2 "a.mp3" "b.mp3" [] false).ui = [] →
       ∀ x ∈ (initC2 "a.mp3" "b.mp3" [] false).queue, x = "b.mp3")) :=
  ⟨by simp, by decide,
    stop_clear_enqueue_no_replay "a.mp3" "b.mp3" [] false (by simp)
      (by decide) _ Relation.ReflTransGen.refl⟩

end TerminalWave
